import Mathlib

/-!
# Verification of the leadminton interclub core

Shallow embedding of the two algorithmic components of `InterclubService`
(src/unnamed/part_001): the round-robin fixture scheduler
(`generateAndPersistMatchSchedule`, lines 429-517) and the standings
aggregator (`getGroupStandings`, lines 948-1072).  Persistence calls
(supabase reads/writes) are external collaborators; the embedding covers the
pure in-memory computation between them.
-/

namespace Leadminton

/-- A fixture row as assembled into `fixturesToInsert`
(src/unnamed/part_001, lines 462-490). -/
structure Fixture where
  season_id : String
  week_number : Nat
  home_team_id : String
  away_team_id : String
  match_date : String
  status : String
  group_number : Nat
deriving DecidableEq

/-- Inner loop of step 1 of the scheduler (lines 438-441): for a fixed team
`t = teamIds[i]`, and the remaining teams `teamIds[i+1..]`, push
`(home := t, away := u)` then `(home := u, away := t)` for each later `u`. -/
def pairFixtures (t : String) : List String → List (String × String)
  | [] => []
  | u :: rest => (t, u) :: (u, t) :: pairFixtures t rest

/-- Step 1 of the scheduler (lines 436-442): the `raw` home/away fixture list,
built by the nested index loops `i < j` over `teamIds`. -/
def rawFixtures : List String → List (String × String)
  | [] => []
  | t :: rest => pairFixtures t rest ++ rawFixtures rest

/-- `const weeks = 4` (line 445). -/
def weeksCount : Nat := 4

/-- Step 2 of the scheduler (lines 446-452): `perWeekBase = ⌊totalMD / weeks⌋`,
`extras = totalMD % weeks`, and bucket `w` holds `perWeekBase + (w < extras ? 1 : 0)`. -/
def weekBuckets (totalMD : Nat) : List Nat :=
  (List.range weeksCount).map
    (fun w => totalMD / weeksCount + if w < totalMD % weeksCount then 1 else 0)

/-- The while loop of step 4 (lines 474-477): starting from `cum = 0, wk = 0`,
advance while `cum + weekBuckets[wk] < matchday`.  Here `m` is the remaining
offset `matchday - cum`, so the condition reads `b < m`; the result is the
0-based week index. -/
def findWeek : List Nat → Nat → Nat
  | [], _ => 0
  | b :: rest, m => if b < m then findWeek rest (m - b) + 1 else 0

/-- Step 4 of the scheduler (lines 472-493): walk `raw` with a `matchday`
counter starting at 1, stamping each fixture with its week, date and the
initial status `"scheduled"`. -/
def buildFixtures (seasonId : String) (computeMatchDate : Nat → String)
    (groupNumber : Nat) (buckets : List Nat) :
    Nat → List (String × String) → List Fixture
  | _, [] => []
  | matchday, (home, away) :: rest =>
    { season_id := seasonId
      week_number := findWeek buckets matchday + 1
      home_team_id := home
      away_team_id := away
      match_date := computeMatchDate matchday
      status := "scheduled"
      group_number := groupNumber } ::
      buildFixtures seasonId computeMatchDate groupNumber buckets (matchday + 1) rest

/-- The pure slice of `generateAndPersistMatchSchedule` (lines 429-493): the
list of fixtures it hands to the bulk insert.  Persistence (steps 5-6) is
external. -/
def generateSchedule (seasonId : String) (teamIds : List String)
    (computeMatchDate : Nat → String) (groupNumber : Nat) : List Fixture :=
  let raw := rawFixtures teamIds
  let buckets := weekBuckets raw.length
  buildFixtures seasonId computeMatchDate groupNumber buckets 1 raw

/-- One element of the parsed `results` array of an encounter (line 1000);
the aggregator only inspects its `winner` field, which may be absent in
malformed data (line 1014 reads `result.winner === 'home'`). -/
structure MatchResult where
  winner : Option String
deriving DecidableEq

/-- The slice of an `interclub_matches` row that `getGroupStandings` reads
(lines 997-1000): the two team ids and the parsed `results` array. -/
structure Encounter where
  home_team_id : String
  away_team_id : String
  results : List MatchResult
deriving DecidableEq

/-- The slice of an `interclub_registrations` row that `getGroupStandings`
reads (lines 980-983). -/
structure Registration where
  user_id : String
  team_name : String
deriving DecidableEq

/-- A `GroupStanding` record (lines 981-993). -/
structure GroupStanding where
  team_id : String
  team_name : String
  is_cpu : Bool
  position : Nat
  matches_played : Nat
  encounters_won : Nat
  encounters_lost : Nat
  individual_matches_won : Nat
  individual_matches_lost : Nat
  points : Nat
  form : List Char
deriving DecidableEq

/-- The zero-initialised standing entry built for each registration
(lines 981-993). -/
def freshStanding (reg : Registration) : GroupStanding :=
  { team_id := reg.user_id
    team_name := reg.team_name
    is_cpu := false
    position := 0
    matches_played := 0
    encounters_won := 0
    encounters_lost := 0
    individual_matches_won := 0
    individual_matches_lost := 0
    points := 0
    form := [] }

/-- JS object assignment `standings[reg.user_id] = {...}` (line 981): if the
key already exists the value is overwritten in place (keeping its insertion
position), otherwise the key is appended; `Object.values` later iterates in
insertion order. -/
def recordInsert (l : List GroupStanding) (reg : Registration) : List GroupStanding :=
  if l.any (fun s => s.team_id == reg.user_id) then
    l.map (fun s => if s.team_id = reg.user_id then freshStanding reg else s)
  else
    l ++ [freshStanding reg]

/-- `registrations?.forEach(reg => standings[reg.user_id] = {...})`
(lines 980-994). -/
def initStandings (regs : List Registration) : List GroupStanding :=
  regs.foldl recordInsert []

/-- `results.forEach(...)` (lines 1013-1019): a result counts as a home
individual win exactly when `winner === 'home'`. -/
def homeWinsOf (results : List MatchResult) : Nat :=
  results.countP (fun r => r.winner == some "home")

/-- Any other result — any `winner` other than the string `'home'`, including a
missing one — is tallied as an away individual win (line 1016-1018). -/
def awayWinsOf (results : List MatchResult) : Nat :=
  results.countP (fun r => !(r.winner == some "home"))

/-- `standings[tid].matches_played++` under its existence guard
(lines 1002-1007), applied entrywise. -/
def bumpPlayed (tid : String) (s : GroupStanding) : GroupStanding :=
  if s.team_id = tid then { s with matches_played := s.matches_played + 1 } else s

/-- The home-side statistics update (lines 1022-1034): accumulate individual
wins/losses, then 3 points / encounter win / 'W' if `homeWins > awayWins`,
else encounter loss / 'L'. -/
def applyHomeResult (tid : String) (hw aw : Nat) (s : GroupStanding) : GroupStanding :=
  if s.team_id = tid then
    let s1 := { s with individual_matches_won := s.individual_matches_won + hw
                       individual_matches_lost := s.individual_matches_lost + aw }
    if aw < hw then
      { s1 with encounters_won := s1.encounters_won + 1
                points := s1.points + 3
                form := s1.form ++ ['W'] }
    else
      { s1 with encounters_lost := s1.encounters_lost + 1
                form := s1.form ++ ['L'] }
  else s

/-- The away-side statistics update (lines 1036-1048), mirror of
`applyHomeResult` with the roles of the win counts swapped. -/
def applyAwayResult (tid : String) (hw aw : Nat) (s : GroupStanding) : GroupStanding :=
  if s.team_id = tid then
    let s1 := { s with individual_matches_won := s.individual_matches_won + aw
                       individual_matches_lost := s.individual_matches_lost + hw }
    if hw < aw then
      { s1 with encounters_won := s1.encounters_won + 1
                points := s1.points + 3
                form := s1.form ++ ['W'] }
    else
      { s1 with encounters_lost := s1.encounters_lost + 1
                form := s1.form ++ ['L'] }
  else s

/-- Processing of one encounter (lines 997-1049): four guarded key updates on
the standings record; each touches only the entries whose `team_id` matches,
so they are entrywise maps over the record in insertion order. -/
def processEncounter (l : List GroupStanding) (e : Encounter) : List GroupStanding :=
  let hw := homeWinsOf e.results
  let aw := awayWinsOf e.results
  (((l.map (bumpPlayed e.home_team_id)).map (bumpPlayed e.away_team_id)).map
      (applyHomeResult e.home_team_id hw aw)).map (applyAwayResult e.away_team_id hw aw)

/-- The four guarded updates of one encounter fused into a single per-entry
step, for reasoning about `processEncounter` as one map. -/
def encounterStep (e : Encounter) (s : GroupStanding) : GroupStanding :=
  let hw := homeWinsOf e.results
  let aw := awayWinsOf e.results
  applyAwayResult e.away_team_id hw aw
    (applyHomeResult e.home_team_id hw aw
      (bumpPlayed e.away_team_id (bumpPlayed e.home_team_id s)))

/-- `standingDiff s` is the goal-like differential
`individual_matches_won - individual_matches_lost` (lines 1056-1057). -/
def standingDiff (s : GroupStanding) : Int :=
  (s.individual_matches_won : Int) - (s.individual_matches_lost : Int)

/-- The JS sort comparator (lines 1052-1059): descending points, then
descending individual-match differential. -/
def standingCmp (a b : GroupStanding) : Int :=
  if b.points ≠ a.points then (b.points : Int) - (a.points : Int)
  else standingDiff b - standingDiff a

/-- `standingLE a b` holds when the comparator allows `a` to stay before `b`
(comparator value ≤ 0). -/
def standingLE (a b : GroupStanding) : Bool :=
  decide (standingCmp a b ≤ 0)

/-- `Object.values(standings).sort(comparator)` (line 1052).  ECMAScript
requires `Array.prototype.sort` to be stable, and this comparator is
consistent (a total preorder), so the sorted output is the unique stable
order — which stable `List.mergeSort` computes. -/
def sortStandings (l : List GroupStanding) : List GroupStanding :=
  l.mergeSort standingLE

/-- `sortedStandings.forEach((standing, index) => ...)` (lines 1062-1065):
assign `position = index + 1` and truncate `form` to its last 5 entries
(`form.slice(-5)`). -/
def finalizeStandings : Nat → List GroupStanding → List GroupStanding
  | _, [] => []
  | idx, s :: rest =>
    { s with position := idx + 1
             form := s.form.drop (s.form.length - 5) } ::
      finalizeStandings (idx + 1) rest

/-- The pure slice of `getGroupStandings` (lines 976-1067): initialise one
entry per registration, fold the completed encounters, sort, then assign
positions and truncate form.  The surrounding query/JSON-parse failure paths
(returning `[]`) are external. -/
def computeStandings (regs : List Registration) (encs : List Encounter) :
    List GroupStanding :=
  finalizeStandings 0 (sortStandings (encs.foldl processEncounter (initStandings regs)))

/-- The 'W'/'L' characters a single encounter appends to team `t`'s form
(home side first, as the source updates home before away): the observable
per-encounter result used to state what "a team's chronological results"
means. -/
def encounterDelta (t : String) (e : Encounter) : List Char :=
  let hw := homeWinsOf e.results
  let aw := awayWinsOf e.results
  (if e.home_team_id = t then [if aw < hw then 'W' else 'L'] else []) ++
    (if e.away_team_id = t then [if hw < aw then 'W' else 'L'] else [])

/-- Team `t`'s full result sequence, in the chronological order the
encounters are supplied. -/
def chronoResults (t : String) : List Encounter → List Char
  | [] => []
  | e :: rest => encounterDelta t e ++ chronoResults t rest

lemma pairFixtures_length (t : String) (l : List String) :
    (pairFixtures t l).length = 2 * l.length := by
  induction l with
  | nil => rfl
  | cons u rest ih => simp [pairFixtures, ih]; ring

lemma rawFixtures_length (l : List String) :
    (rawFixtures l).length = l.length * (l.length - 1) := by
  induction l with
  | nil => rfl
  | cons t rest ih =>
    simp [rawFixtures, pairFixtures_length, ih]
    cases rest with
    | nil => rfl
    | cons u r => simp [List.length_cons]; ring

lemma mem_pairFixtures {t x y : String} {l : List String}
    (h : (x, y) ∈ pairFixtures t l) : (x = t ∧ y ∈ l) ∨ (y = t ∧ x ∈ l) := by
  induction l with
  | nil => simp [pairFixtures] at h
  | cons u rest ih =>
    simp only [pairFixtures, List.mem_cons] at h
    rcases h with h | h | h
    · exact Or.inl ⟨by simpa using congrArg Prod.fst h, by simp [show y = u from congrArg Prod.snd h]⟩
    · exact Or.inr ⟨by simpa using congrArg Prod.snd h, by simp [show x = u from congrArg Prod.fst h]⟩
    · rcases ih h with ⟨h1, h2⟩ | ⟨h1, h2⟩
      · exact Or.inl ⟨h1, List.mem_cons_of_mem _ h2⟩
      · exact Or.inr ⟨h1, List.mem_cons_of_mem _ h2⟩

lemma mem_rawFixtures {x y : String} {l : List String}
    (h : (x, y) ∈ rawFixtures l) : x ∈ l ∧ y ∈ l := by
  induction l with
  | nil => simp [rawFixtures] at h
  | cons t rest ih =>
    simp only [rawFixtures, List.mem_append] at h
    rcases h with h | h
    · rcases mem_pairFixtures h with ⟨h1, h2⟩ | ⟨h1, h2⟩
      · exact ⟨by simp [h1], List.mem_cons_of_mem _ h2⟩
      · exact ⟨List.mem_cons_of_mem _ h2, by simp [h1]⟩
    · rcases ih h with ⟨h1, h2⟩
      exact ⟨List.mem_cons_of_mem _ h1, List.mem_cons_of_mem _ h2⟩

lemma count_pairFixtures_left (t y : String) (l : List String) (hne : y ≠ t) :
    (pairFixtures t l).count (t, y) = l.count y := by
  induction l with
  | nil => rfl
  | cons u rest ih =>
    simp only [pairFixtures, List.count_cons, ih]
    have h2 : ¬ ((u, t) = (t, y)) := by
      simp only [Prod.mk.injEq, not_and]
      intro _ hh
      exact hne hh.symm
    by_cases h : u = y
    · subst h; simp [Prod.ext_iff, h2, hne.symm]
    · have h1 : ¬ ((t, u) = (t, y)) := by
        simp only [Prod.mk.injEq, not_and]
        intro _ hh
        exact h hh
      simp [h1, h2, h]

lemma count_pairFixtures_right (t x : String) (l : List String) (hne : x ≠ t) :
    (pairFixtures t l).count (x, t) = l.count x := by
  induction l with
  | nil => rfl
  | cons u rest ih =>
    simp only [pairFixtures, List.count_cons, ih]
    have h1 : ¬ ((t, u) = (x, t)) := by
      simp only [Prod.mk.injEq, not_and]
      intro hh _
      exact hne hh.symm
    by_cases h : u = x
    · subst h; simp [Prod.ext_iff, h1, hne.symm]
    · have h2 : ¬ ((u, t) = (x, t)) := by
        simp only [Prod.mk.injEq, not_and]
        intro hh _
        exact h hh
      simp [h1, h2, h]

lemma count_pairFixtures_other (t x y : String) (l : List String)
    (hx : x ≠ t) (hy : y ≠ t) :
    (pairFixtures t l).count (x, y) = 0 := by
  induction l with
  | nil => rfl
  | cons u rest ih =>
    have h1 : ¬ ((t, u) = (x, y)) := by
      simp only [Prod.mk.injEq, not_and]
      intro hh _
      exact hx hh.symm
    have h2 : ¬ ((u, t) = (x, y)) := by
      simp only [Prod.mk.injEq, not_and]
      intro _ hh
      exact hy hh.symm
    simp [pairFixtures, List.count_cons, h1, h2, ih]

lemma count_rawFixtures {l : List String} (hl : l.Nodup) {x y : String}
    (hx : x ∈ l) (hy : y ∈ l) (hxy : x ≠ y) :
    (rawFixtures l).count (x, y) = 1 := by
  induction l with
  | nil => simp at hx
  | cons t rest ih =>
    rcases List.nodup_cons.mp hl with ⟨htr, hrest⟩
    simp only [rawFixtures, List.count_append]
    by_cases hxt : x = t
    · subst hxt
      have hyr : y ∈ rest := by
        rcases List.mem_cons.mp hy with h | h
        · exact absurd h.symm hxy
        · exact h
      have h0 : (rawFixtures rest).count (x, y) = 0 := by
        rw [List.count_eq_zero]
        intro hmem
        exact htr (mem_rawFixtures hmem).1
      rw [count_pairFixtures_left _ _ _ (fun h => hxy h.symm),
        List.count_eq_one_of_mem hrest hyr, h0]
    · by_cases hyt : y = t
      · subst hyt
        have hxr : x ∈ rest := by
          rcases List.mem_cons.mp hx with h | h
          · exact absurd h hxy
          · exact h
        have h0 : (rawFixtures rest).count (x, y) = 0 := by
          rw [List.count_eq_zero]
          intro hmem
          exact htr (mem_rawFixtures hmem).2
        rw [count_pairFixtures_right _ _ _ hxt,
          List.count_eq_one_of_mem hrest hxr, h0]
      · have hxr : x ∈ rest := by
          rcases List.mem_cons.mp hx with h | h
          · exact absurd h hxt
          · exact h
        have hyr : y ∈ rest := by
          rcases List.mem_cons.mp hy with h | h
          · exact absurd h hyt
          · exact h
        rw [count_pairFixtures_other _ _ _ _ hxt hyt, ih hrest hxr hyr]

lemma buildFixtures_map_pair (seasonId : String) (computeMatchDate : Nat → String)
    (groupNumber : Nat) (buckets : List Nat) (md : Nat) (raw : List (String × String)) :
    (buildFixtures seasonId computeMatchDate groupNumber buckets md raw).map
      (fun f => (f.home_team_id, f.away_team_id)) = raw := by
  induction raw generalizing md with
  | nil => rfl
  | cons p rest ih => cases p; simp [buildFixtures, ih]

lemma buildFixtures_length (seasonId : String) (computeMatchDate : Nat → String)
    (groupNumber : Nat) (buckets : List Nat) (md : Nat) (raw : List (String × String)) :
    (buildFixtures seasonId computeMatchDate groupNumber buckets md raw).length
      = raw.length := by
  have := congrArg List.length
    (buildFixtures_map_pair seasonId computeMatchDate groupNumber buckets md raw)
  simpa using this

lemma weekBuckets_eq (M : Nat) :
    weekBuckets M =
      [M / 4 + (if 0 < M % 4 then 1 else 0),
       M / 4 + (if 1 < M % 4 then 1 else 0),
       M / 4 + (if 2 < M % 4 then 1 else 0),
       M / 4 + (if 3 < M % 4 then 1 else 0)] := by
  rfl

lemma weekBuckets_sum (M : Nat) : (weekBuckets M).sum = M := by
  rw [weekBuckets_eq]
  simp only [List.sum_cons, List.sum_nil]
  split_ifs <;> omega

lemma weekBuckets_getD (M : Nat) (w : Nat) (hw : w < weeksCount) :
    (weekBuckets M).getD w 0
      = M / weeksCount + (if w < M % weeksCount then 1 else 0) := by
  rw [weekBuckets_eq]
  show _ = M / 4 + (if w < M % 4 then 1 else 0)
  have hw4 : w < 4 := hw
  interval_cases w <;> rfl

lemma weekBuckets_mem_le {M a b : Nat} (ha : a ∈ weekBuckets M)
    (hb : b ∈ weekBuckets M) : a ≤ b + 1 := by
  rw [weekBuckets_eq] at ha hb
  simp only [List.mem_cons, List.not_mem_nil, or_false] at ha hb
  rcases ha with ha | ha | ha | ha <;> rcases hb with hb | hb | hb | hb <;>
    subst ha <;> subst hb <;> split_ifs <;> omega

lemma processEncounter_eq_map (l : List GroupStanding) (e : Encounter) :
    processEncounter l e = l.map (encounterStep e) := by
  simp only [processEncounter, List.map_map]
  rfl

lemma bumpPlayed_pos {tid : String} {s : GroupStanding} (h : s.team_id = tid) :
    bumpPlayed tid s = { s with matches_played := s.matches_played + 1 } := by
  simp [bumpPlayed, h]

lemma bumpPlayed_neg {tid : String} {s : GroupStanding} (h : s.team_id ≠ tid) :
    bumpPlayed tid s = s := by
  simp [bumpPlayed, h]

lemma applyHomeResult_neg {tid : String} {hw aw : Nat} {s : GroupStanding}
    (h : s.team_id ≠ tid) : applyHomeResult tid hw aw s = s := by
  simp [applyHomeResult, h]

lemma applyHomeResult_pos_win {tid : String} {hw aw : Nat} {s : GroupStanding}
    (h : s.team_id = tid) (hwin : aw < hw) :
    applyHomeResult tid hw aw s =
      { s with individual_matches_won := s.individual_matches_won + hw
               individual_matches_lost := s.individual_matches_lost + aw
               encounters_won := s.encounters_won + 1
               points := s.points + 3
               form := s.form ++ ['W'] } := by
  simp [applyHomeResult, h, hwin]

lemma applyHomeResult_pos_lose {tid : String} {hw aw : Nat} {s : GroupStanding}
    (h : s.team_id = tid) (hlose : ¬ aw < hw) :
    applyHomeResult tid hw aw s =
      { s with individual_matches_won := s.individual_matches_won + hw
               individual_matches_lost := s.individual_matches_lost + aw
               encounters_lost := s.encounters_lost + 1
               form := s.form ++ ['L'] } := by
  simp [applyHomeResult, h, hlose]

lemma applyAwayResult_neg {tid : String} {hw aw : Nat} {s : GroupStanding}
    (h : s.team_id ≠ tid) : applyAwayResult tid hw aw s = s := by
  simp [applyAwayResult, h]

lemma applyAwayResult_pos_win {tid : String} {hw aw : Nat} {s : GroupStanding}
    (h : s.team_id = tid) (hwin : hw < aw) :
    applyAwayResult tid hw aw s =
      { s with individual_matches_won := s.individual_matches_won + aw
               individual_matches_lost := s.individual_matches_lost + hw
               encounters_won := s.encounters_won + 1
               points := s.points + 3
               form := s.form ++ ['W'] } := by
  simp [applyAwayResult, h, hwin]

lemma applyAwayResult_pos_lose {tid : String} {hw aw : Nat} {s : GroupStanding}
    (h : s.team_id = tid) (hlose : ¬ hw < aw) :
    applyAwayResult tid hw aw s =
      { s with individual_matches_won := s.individual_matches_won + aw
               individual_matches_lost := s.individual_matches_lost + hw
               encounters_lost := s.encounters_lost + 1
               form := s.form ++ ['L'] } := by
  simp [applyAwayResult, h, hlose]

lemma bumpPlayed_team_id (tid : String) (s : GroupStanding) :
    (bumpPlayed tid s).team_id = s.team_id := by
  simp only [bumpPlayed]
  split <;> rfl

lemma applyHomeResult_team_id (tid : String) (hw aw : Nat) (s : GroupStanding) :
    (applyHomeResult tid hw aw s).team_id = s.team_id := by
  simp only [applyHomeResult]
  split <;> [skip; rfl]
  split <;> rfl

lemma applyAwayResult_team_id (tid : String) (hw aw : Nat) (s : GroupStanding) :
    (applyAwayResult tid hw aw s).team_id = s.team_id := by
  simp only [applyAwayResult]
  split <;> [skip; rfl]
  split <;> rfl

lemma encounterStep_team_id (e : Encounter) (s : GroupStanding) :
    (encounterStep e s).team_id = s.team_id := by
  simp [encounterStep, applyAwayResult_team_id, applyHomeResult_team_id,
    bumpPlayed_team_id]

lemma encounterStep_not_involved {e : Encounter} {s : GroupStanding}
    (h1 : s.team_id ≠ e.home_team_id) (h2 : s.team_id ≠ e.away_team_id) :
    encounterStep e s = s := by
  rw [encounterStep, bumpPlayed_neg h1, bumpPlayed_neg h2,
    applyHomeResult_neg h1, applyAwayResult_neg h2]

lemma encounterStep_home_only {e : Encounter} {s : GroupStanding}
    (hh : s.team_id = e.home_team_id) (hna : s.team_id ≠ e.away_team_id) :
    encounterStep e s =
      if awayWinsOf e.results < homeWinsOf e.results then
        { s with matches_played := s.matches_played + 1
                 individual_matches_won :=
                   s.individual_matches_won + homeWinsOf e.results
                 individual_matches_lost :=
                   s.individual_matches_lost + awayWinsOf e.results
                 encounters_won := s.encounters_won + 1
                 points := s.points + 3
                 form := s.form ++ ['W'] }
      else
        { s with matches_played := s.matches_played + 1
                 individual_matches_won :=
                   s.individual_matches_won + homeWinsOf e.results
                 individual_matches_lost :=
                   s.individual_matches_lost + awayWinsOf e.results
                 encounters_lost := s.encounters_lost + 1
                 form := s.form ++ ['L'] } := by
  have hne2 : e.home_team_id ≠ e.away_team_id := fun h => hna (hh.trans h)
  by_cases hwin : awayWinsOf e.results < homeWinsOf e.results <;>
    simp [encounterStep, bumpPlayed, applyHomeResult, applyAwayResult, hh, hne2,
      hwin]

lemma encounterStep_away_only {e : Encounter} {s : GroupStanding}
    (ha : s.team_id = e.away_team_id) (hnh : s.team_id ≠ e.home_team_id) :
    encounterStep e s =
      if homeWinsOf e.results < awayWinsOf e.results then
        { s with matches_played := s.matches_played + 1
                 individual_matches_won :=
                   s.individual_matches_won + awayWinsOf e.results
                 individual_matches_lost :=
                   s.individual_matches_lost + homeWinsOf e.results
                 encounters_won := s.encounters_won + 1
                 points := s.points + 3
                 form := s.form ++ ['W'] }
      else
        { s with matches_played := s.matches_played + 1
                 individual_matches_won :=
                   s.individual_matches_won + awayWinsOf e.results
                 individual_matches_lost :=
                   s.individual_matches_lost + homeWinsOf e.results
                 encounters_lost := s.encounters_lost + 1
                 form := s.form ++ ['L'] } := by
  have hne2 : e.away_team_id ≠ e.home_team_id := fun h => hnh (ha.trans h)
  by_cases hwin : homeWinsOf e.results < awayWinsOf e.results <;>
    simp [encounterStep, bumpPlayed, applyHomeResult, applyAwayResult, ha, hne2,
      hwin]

lemma generateSchedule_def (seasonId : String) (teamIds : List String)
    (computeMatchDate : Nat → String) (groupNumber : Nat) :
    generateSchedule seasonId teamIds computeMatchDate groupNumber
      = buildFixtures seasonId computeMatchDate groupNumber
          (weekBuckets (rawFixtures teamIds).length) 1 (rawFixtures teamIds) := rfl

/-- C1: for every sequence of N distinct team identifiers, the fixture
scheduler produces exactly N·(N−1) fixtures, and every ordered pair (x, y) of
distinct teams from the input appears exactly once as a fixture with
home = x and away = y. -/
theorem generateSchedule_double_round_robin
    (seasonId : String) (teamIds : List String) (computeMatchDate : Nat → String)
    (groupNumber : Nat) (hnd : teamIds.Nodup) :
    (generateSchedule seasonId teamIds computeMatchDate groupNumber).length
        = teamIds.length * (teamIds.length - 1) ∧
    ∀ x ∈ teamIds, ∀ y ∈ teamIds, x ≠ y →
      (generateSchedule seasonId teamIds computeMatchDate groupNumber).countP
        (fun f => f.home_team_id == x && f.away_team_id == y) = 1 := by
  constructor
  · rw [generateSchedule_def, buildFixtures_length, rawFixtures_length]
  · intro x hx y hy hxy
    rw [generateSchedule_def]
    have hmap := buildFixtures_map_pair seasonId computeMatchDate groupNumber
      (weekBuckets (rawFixtures teamIds).length) 1 (rawFixtures teamIds)
    have hcount := count_rawFixtures hnd hx hy hxy
    rw [List.count_eq_countP, ← hmap, List.countP_map] at hcount
    exact hcount

/-- Witness for C1 at the concrete input `["a", "b"]`. -/
theorem generateSchedule_double_round_robin_witness :
    (generateSchedule "s" ["a", "b"] (fun _ => "d") 1).length
        = (["a", "b"] : List String).length * ((["a", "b"] : List String).length - 1) ∧
    (generateSchedule "s" ["a", "b"] (fun _ => "d") 1).countP
        (fun f => f.home_team_id == "a" && f.away_team_id == "b") = 1 :=
  ⟨(generateSchedule_double_round_robin "s" ["a", "b"] (fun _ => "d") 1 (by decide)).1,
   (generateSchedule_double_round_robin "s" ["a", "b"] (fun _ => "d") 1 (by decide)).2
     "a" (by decide) "b" (by decide) (by decide)⟩

/-- C2: for every team list, with M = N·(N−1) the total matchday count, the
week buckets hold base = M div weekCount matchdays each, with the first
M mod weekCount weeks holding one extra; consequently the bucket sizes sum
to M and no two buckets differ by more than one matchday. -/
theorem weekBuckets_even_distribution (teamIds : List String) :
    (rawFixtures teamIds).length = teamIds.length * (teamIds.length - 1) ∧
    (weekBuckets (rawFixtures teamIds).length).length = weeksCount ∧
    (∀ w, w < weeksCount →
      (weekBuckets (rawFixtures teamIds).length).getD w 0
        = (rawFixtures teamIds).length / weeksCount
          + (if w < (rawFixtures teamIds).length % weeksCount then 1 else 0)) ∧
    (weekBuckets (rawFixtures teamIds).length).sum = (rawFixtures teamIds).length ∧
    (∀ a ∈ weekBuckets (rawFixtures teamIds).length,
      ∀ b ∈ weekBuckets (rawFixtures teamIds).length, a ≤ b + 1) := by
  refine ⟨rawFixtures_length teamIds, ?_, ?_, weekBuckets_sum _,
    fun a ha b hb => weekBuckets_mem_le ha hb⟩
  · rw [weekBuckets_eq]; rfl
  · exact fun w hw => weekBuckets_getD _ w hw

/-- Witness for C2 at the concrete input of 5 teams (M = 20, buckets
[5, 5, 5, 5]). -/
theorem weekBuckets_even_distribution_witness :
    (rawFixtures ["a", "b", "c", "d", "e"]).length = 20 ∧
    (weekBuckets (rawFixtures ["a", "b", "c", "d", "e"]).length).getD 0 0
      = (rawFixtures ["a", "b", "c", "d", "e"]).length / weeksCount
        + (if 0 < (rawFixtures ["a", "b", "c", "d", "e"]).length % weeksCount
           then 1 else 0) ∧
    (weekBuckets (rawFixtures ["a", "b", "c", "d", "e"]).length).sum
      = (rawFixtures ["a", "b", "c", "d", "e"]).length ∧
    (5 : Nat) ≤ 5 + 1 :=
  ⟨by decide,
   (weekBuckets_even_distribution ["a", "b", "c", "d", "e"]).2.2.1 0 (by decide),
   (weekBuckets_even_distribution ["a", "b", "c", "d", "e"]).2.2.2.1,
   (weekBuckets_even_distribution ["a", "b", "c", "d", "e"]).2.2.2.2
     5 (by decide) 5 (by decide)⟩

/-- C7: for every input with fewer than 2 teams, the fixture scheduler yields
an empty fixture list (a degenerate case, not an error: the computation takes
no failure path and the week schedule is still produced, with four empty
buckets). -/
theorem generateSchedule_degenerate (seasonId : String) (teamIds : List String)
    (computeMatchDate : Nat → String) (groupNumber : Nat)
    (h : teamIds.length < 2) :
    generateSchedule seasonId teamIds computeMatchDate groupNumber = [] ∧
    rawFixtures teamIds = [] ∧
    weekBuckets (rawFixtures teamIds).length = [0, 0, 0, 0] := by
  have hraw : rawFixtures teamIds = [] := by
    cases teamIds with
    | nil => rfl
    | cons t rest =>
      cases rest with
      | nil => rfl
      | cons u r => simp only [List.length_cons] at h; omega
  refine ⟨?_, hraw, ?_⟩
  · rw [generateSchedule_def, hraw]; rfl
  · rw [hraw]; rfl

/-- Witness for C7 at the concrete singleton input `["solo"]`. -/
theorem generateSchedule_degenerate_witness :
    generateSchedule "s" ["solo"] (fun _ => "d") 1 = [] ∧
    rawFixtures ["solo"] = [] ∧
    weekBuckets (rawFixtures ["solo"]).length = [0, 0, 0, 0] :=
  generateSchedule_degenerate "s" ["solo"] (fun _ => "d") 1 (by decide)

lemma encounterStep_balance {e : Encounter} {s : GroupStanding}
    (h : s.encounters_won + s.encounters_lost = s.matches_played) :
    (encounterStep e s).encounters_won + (encounterStep e s).encounters_lost
      = (encounterStep e s).matches_played := by
  by_cases h1 : s.team_id = e.home_team_id <;>
    by_cases h2 : s.team_id = e.away_team_id
  · have h3 : e.home_team_id = e.away_team_id := h1.symm.trans h2
    simp only [encounterStep, bumpPlayed, applyHomeResult, applyAwayResult]
    split_ifs <;> simp_all <;> omega
  · rw [encounterStep_home_only h1 h2]
    split_ifs <;> simp <;> omega
  · rw [encounterStep_away_only h2 h1]
    split_ifs <;> simp <;> omega
  · rw [encounterStep_not_involved h1 h2]
    exact h

lemma bumpPlayed_form (tid : String) (s : GroupStanding) :
    (bumpPlayed tid s).form = s.form := by
  unfold bumpPlayed
  split <;> rfl

lemma applyHomeResult_form (tid : String) (hw aw : Nat) (s : GroupStanding) :
    (applyHomeResult tid hw aw s).form
      = s.form ++ (if s.team_id = tid then [if aw < hw then 'W' else 'L'] else []) := by
  unfold applyHomeResult
  split_ifs <;> simp

lemma applyAwayResult_form (tid : String) (hw aw : Nat) (s : GroupStanding) :
    (applyAwayResult tid hw aw s).form
      = s.form ++ (if s.team_id = tid then [if hw < aw then 'W' else 'L'] else []) := by
  unfold applyAwayResult
  split_ifs <;> simp

lemma encounterStep_form (e : Encounter) (s : GroupStanding) :
    (encounterStep e s).form = s.form ++ encounterDelta s.team_id e := by
  simp only [encounterStep, encounterDelta]
  rw [applyAwayResult_form, applyHomeResult_form, applyHomeResult_team_id,
    bumpPlayed_team_id, bumpPlayed_team_id, bumpPlayed_form, bumpPlayed_form]
  by_cases h1 : s.team_id = e.home_team_id <;>
    by_cases h2 : s.team_id = e.away_team_id
  · have g1 : e.home_team_id = s.team_id := h1.symm
    have g2 : e.away_team_id = s.team_id := h2.symm
    simp [if_pos h1, if_pos h2, if_pos g1, if_pos g2]
  · have g1 : e.home_team_id = s.team_id := h1.symm
    have g2 : ¬ e.away_team_id = s.team_id := fun h => h2 h.symm
    simp [if_pos h1, if_neg h2, if_pos g1, if_neg g2]
  · have g1 : ¬ e.home_team_id = s.team_id := fun h => h1 h.symm
    have g2 : e.away_team_id = s.team_id := h2.symm
    simp [if_neg h1, if_pos h2, if_neg g1, if_pos g2]
  · have g1 : ¬ e.home_team_id = s.team_id := fun h => h1 h.symm
    have g2 : ¬ e.away_team_id = s.team_id := fun h => h2 h.symm
    simp [if_neg h1, if_neg h2, if_neg g1, if_neg g2]

lemma foldl_processEncounter_form (encs : List Encounter) :
    ∀ (l : List GroupStanding), ∀ t ∈ encs.foldl processEncounter l,
      ∃ s ∈ l, t.team_id = s.team_id ∧
        t.form = s.form ++ chronoResults s.team_id encs := by
  induction encs with
  | nil =>
    intro l t ht
    exact ⟨t, ht, rfl, by simp [chronoResults]⟩
  | cons e rest ih =>
    intro l t ht
    simp only [List.foldl_cons] at ht
    obtain ⟨u, hu, hid, hform⟩ := ih (processEncounter l e) t ht
    rw [processEncounter_eq_map] at hu
    obtain ⟨s, hs, rfl⟩ := List.mem_map.mp hu
    refine ⟨s, hs, ?_, ?_⟩
    · rw [hid, encounterStep_team_id]
    · rw [hform, encounterStep_form, encounterStep_team_id, chronoResults,
        List.append_assoc]

lemma foldl_processEncounter_balance (encs : List Encounter) :
    ∀ (l : List GroupStanding),
      (∀ s ∈ l, s.encounters_won + s.encounters_lost = s.matches_played) →
      ∀ t ∈ encs.foldl processEncounter l,
        t.encounters_won + t.encounters_lost = t.matches_played := by
  induction encs with
  | nil => intro l hl t ht; exact hl t ht
  | cons e rest ih =>
    intro l hl t ht
    simp only [List.foldl_cons] at ht
    refine ih (processEncounter l e) ?_ t ht
    intro u hu
    rw [processEncounter_eq_map] at hu
    obtain ⟨s, hs, rfl⟩ := List.mem_map.mp hu
    exact encounterStep_balance (hl s hs)

lemma mem_recordInsert {s : GroupStanding} {l : List GroupStanding}
    {reg : Registration} (h : s ∈ recordInsert l reg) :
    s ∈ l ∨ s = freshStanding reg := by
  unfold recordInsert at h
  split at h
  · obtain ⟨t, ht, hts⟩ := List.mem_map.mp h
    by_cases hc : t.team_id = reg.user_id
    · rw [if_pos hc] at hts
      exact Or.inr hts.symm
    · rw [if_neg hc] at hts
      exact Or.inl (hts ▸ ht)
  · rcases List.mem_append.mp h with h | h
    · exact Or.inl h
    · exact Or.inr (by simpa using h)

lemma mem_foldl_recordInsert (regs : List Registration) :
    ∀ (acc : List GroupStanding) (s : GroupStanding),
      s ∈ regs.foldl recordInsert acc →
      s ∈ acc ∨ ∃ reg ∈ regs, s = freshStanding reg := by
  induction regs with
  | nil => intro acc s h; exact Or.inl h
  | cons r rest ih =>
    intro acc s h
    simp only [List.foldl_cons] at h
    rcases ih (recordInsert acc r) s h with h | ⟨reg, hreg, hs⟩
    · rcases mem_recordInsert h with h | h
      · exact Or.inl h
      · exact Or.inr ⟨r, List.mem_cons_self r rest, h⟩
    · exact Or.inr ⟨reg, List.mem_cons_of_mem _ hreg, hs⟩

lemma mem_initStandings {s : GroupStanding} {regs : List Registration}
    (h : s ∈ initStandings regs) : ∃ reg ∈ regs, s = freshStanding reg := by
  rcases mem_foldl_recordInsert regs [] s h with h | h
  · simp at h
  · exact h

lemma foldl_recordInsert_nodup (regs : List Registration) :
    ∀ (acc : List GroupStanding),
      (regs.map (fun r => r.user_id)).Nodup →
      (∀ r ∈ regs, ∀ s ∈ acc, s.team_id ≠ r.user_id) →
      regs.foldl recordInsert acc = acc ++ regs.map freshStanding := by
  induction regs with
  | nil => intro acc _ _; simp
  | cons r rest ih =>
    intro acc hnd hacc
    simp only [List.foldl_cons]
    have hins : recordInsert acc r = acc ++ [freshStanding r] := by
      rw [recordInsert, if_neg]
      simp only [List.any_eq_true, not_exists, not_and]
      intro s hs
      simpa using hacc r (List.mem_cons_self r rest) s hs
    rw [hins]
    rw [List.map_cons, List.nodup_cons] at hnd
    have hni : r.user_id ∉ rest.map (fun r => r.user_id) := hnd.1
    rw [ih (acc ++ [freshStanding r]) hnd.2 ?_]
    · simp
    · intro r' hr' s hs
      rcases List.mem_append.mp hs with hs | hs
      · exact hacc r' (List.mem_cons_of_mem _ hr') s hs
      · have : s = freshStanding r := by simpa using hs
        rw [this]
        intro hcontra
        exact hni (by
          rw [List.mem_map]
          exact ⟨r', hr', by simpa [freshStanding] using hcontra.symm⟩)

lemma initStandings_nodup {regs : List Registration}
    (hnd : (regs.map (fun r => r.user_id)).Nodup) :
    initStandings regs = regs.map freshStanding := by
  rw [initStandings, foldl_recordInsert_nodup regs [] hnd (by simp)]
  simp

lemma finalizeStandings_length (n : Nat) (l : List GroupStanding) :
    (finalizeStandings n l).length = l.length := by
  induction l generalizing n with
  | nil => rfl
  | cons s rest ih => simp [finalizeStandings, ih]

lemma mem_finalizeStandings {t : GroupStanding} {n : Nat}
    {l : List GroupStanding} (h : t ∈ finalizeStandings n l) :
    ∃ s ∈ l, t.team_id = s.team_id ∧ t.team_name = s.team_name ∧
      t.matches_played = s.matches_played ∧
      t.encounters_won = s.encounters_won ∧
      t.encounters_lost = s.encounters_lost ∧
      t.individual_matches_won = s.individual_matches_won ∧
      t.individual_matches_lost = s.individual_matches_lost ∧
      t.points = s.points ∧
      t.form = s.form.drop (s.form.length - 5) := by
  induction l generalizing n with
  | nil => simp [finalizeStandings] at h
  | cons s rest ih =>
    simp only [finalizeStandings, List.mem_cons] at h
    rcases h with h | h
    · exact ⟨s, List.mem_cons_self s rest, by rw [h], by rw [h], by rw [h],
        by rw [h], by rw [h], by rw [h], by rw [h], by rw [h], by rw [h]⟩
    · obtain ⟨u, hu, hrest⟩ := ih h
      exact ⟨u, List.mem_cons_of_mem _ hu, hrest⟩

lemma finalizeStandings_map_team_id (n : Nat) (l : List GroupStanding) :
    (finalizeStandings n l).map (fun s => s.team_id)
      = l.map (fun s => s.team_id) := by
  induction l generalizing n with
  | nil => rfl
  | cons s rest ih => simp [finalizeStandings, ih]

lemma finalizeStandings_map_position (n : Nat) (l : List GroupStanding) :
    (finalizeStandings n l).map (fun s => s.position)
      = List.range' (n + 1) l.length := by
  induction l generalizing n with
  | nil => rfl
  | cons s rest ih =>
    simp only [finalizeStandings, List.map_cons, List.length_cons,
      List.range'_succ, ih]

lemma processEncounter_map_team_id (l : List GroupStanding) (e : Encounter) :
    (processEncounter l e).map (fun s => s.team_id)
      = l.map (fun s => s.team_id) := by
  rw [processEncounter_eq_map, List.map_map]
  exact List.map_congr_left (fun s _ => encounterStep_team_id e s)

lemma foldl_processEncounter_map_team_id (encs : List Encounter) :
    ∀ (l : List GroupStanding),
      ((encs.foldl processEncounter l).map fun s => s.team_id)
        = l.map (fun s => s.team_id) := by
  induction encs with
  | nil => intro l; rfl
  | cons e rest ih =>
    intro l
    simp only [List.foldl_cons]
    rw [ih (processEncounter l e), processEncounter_map_team_id]

lemma standingLE_iff (a b : GroupStanding) :
    standingLE a b = true ↔
      (b.points < a.points ∨
        (b.points = a.points ∧ standingDiff b ≤ standingDiff a)) := by
  simp only [standingLE, standingCmp, standingDiff, decide_eq_true_eq]
  split_ifs with h <;> omega

lemma standingLE_trans (a b c : GroupStanding) :
    standingLE a b = true → standingLE b c = true → standingLE a c = true := by
  rw [standingLE_iff, standingLE_iff, standingLE_iff]
  simp only [standingDiff]
  omega

lemma standingLE_total (a b : GroupStanding) :
    (standingLE a b || standingLE b a) = true := by
  rw [Bool.or_eq_true, standingLE_iff, standingLE_iff]
  simp only [standingDiff]
  omega

lemma sortStandings_filter_tied (l : List GroupStanding) (p : Nat) (d : Int) :
    (sortStandings l).filter (fun s => s.points == p && standingDiff s == d)
      = l.filter (fun s => s.points == p && standingDiff s == d) := by
  have hq : ∀ a b : GroupStanding,
      (a.points == p && standingDiff a == d) = true →
      (b.points == p && standingDiff b == d) = true →
      standingLE a b = true := by
    intro a b ha hb
    rw [Bool.and_eq_true, beq_iff_eq, beq_iff_eq] at ha hb
    rw [standingLE_iff]
    right
    exact ⟨hb.1.trans ha.1.symm, le_of_eq (hb.2.trans ha.2.symm)⟩
  have hpair : (l.filter (fun s => s.points == p && standingDiff s == d)).Pairwise
      (fun a b => standingLE a b = true) :=
    List.pairwise_of_forall_mem_list
      (fun a ha b hb =>
        hq a b (List.mem_filter.mp ha).2 (List.mem_filter.mp hb).2)
  have hsub : (l.filter (fun s => s.points == p && standingDiff s == d)).Sublist
      (sortStandings l) :=
    List.sublist_mergeSort standingLE_trans standingLE_total hpair
      (List.filter_sublist l)
  have hsub2 := hsub.filter (fun s => s.points == p && standingDiff s == d)
  rw [List.filter_eq_self.mpr
    (fun a ha => (List.mem_filter.mp ha).2)] at hsub2
  have hperm : ((sortStandings l).filter
        (fun s => s.points == p && standingDiff s == d)).Perm
      (l.filter (fun s => s.points == p && standingDiff s == d)) :=
    (List.mergeSort_perm l standingLE).filter _
  exact (hsub2.eq_of_length hperm.length_eq.symm).symm

lemma standingLE_of {a a' b b' : GroupStanding}
    (hap : a.points = a'.points) (had : standingDiff a = standingDiff a')
    (hbp : b.points = b'.points) (hbd : standingDiff b = standingDiff b')
    (h : standingLE a' b' = true) : standingLE a b = true := by
  simp only [standingLE, standingCmp, hap, had, hbp, hbd]
  simpa only [standingLE, standingCmp] using h

lemma finalizeStandings_pairwise (n : Nat) (l : List GroupStanding)
    (h : l.Pairwise (fun a b => standingLE a b = true)) :
    (finalizeStandings n l).Pairwise (fun a b => standingLE a b = true) := by
  induction l generalizing n with
  | nil => exact List.Pairwise.nil
  | cons s rest ih =>
    rw [List.pairwise_cons] at h
    rw [finalizeStandings, List.pairwise_cons]
    refine ⟨?_, ih (n + 1) h.2⟩
    intro t' ht'
    obtain ⟨t, ht, _, _, _, _, _, hiw, hil, hp, _⟩ := mem_finalizeStandings ht'
    have hd : standingDiff t' = standingDiff t := by
      simp only [standingDiff, hiw, hil]
    exact standingLE_of rfl rfl hp hd (h.1 t ht)

lemma finalizeStandings_map_key (n : Nat) (l : List GroupStanding) :
    (finalizeStandings n l).map (fun s => (s.team_id, s.points, standingDiff s))
      = l.map (fun s => (s.team_id, s.points, standingDiff s)) := by
  induction l generalizing n with
  | nil => rfl
  | cons s rest ih =>
    simp only [finalizeStandings, List.map_cons]
    rw [ih (n + 1)]
    rfl

lemma filter_key_map_team_id (p : Nat) (d : Int) :
    ∀ (l₁ l₂ : List GroupStanding),
      l₁.map (fun s => (s.team_id, s.points, standingDiff s))
        = l₂.map (fun s => (s.team_id, s.points, standingDiff s)) →
      (l₁.filter (fun s => s.points == p && standingDiff s == d)).map
          (fun s => s.team_id)
        = (l₂.filter (fun s => s.points == p && standingDiff s == d)).map
            (fun s => s.team_id) := by
  intro l₁
  induction l₁ with
  | nil =>
    intro l₂ h
    cases l₂ with
    | nil => rfl
    | cons t r => simp at h
  | cons s r ih =>
    intro l₂ h
    cases l₂ with
    | nil => simp at h
    | cons t r₂ =>
      simp only [List.map_cons, List.cons.injEq] at h
      obtain ⟨hhead, htail⟩ := h
      rw [Prod.mk.injEq, Prod.mk.injEq] at hhead
      obtain ⟨htid, hpts, hdiff⟩ := hhead
      simp only [List.filter_cons, hpts, hdiff, htid]
      by_cases hc : (t.points == p && standingDiff t == d) = true
      · simp only [hc, if_true, List.map_cons, htid, ih r₂ htail]
      · simp only [Bool.not_eq_true] at hc
        simp only [hc, Bool.false_eq_true, if_false, ih r₂ htail]

lemma processEncounter_length (l : List GroupStanding) (e : Encounter) :
    (processEncounter l e).length = l.length := by
  rw [processEncounter_eq_map, List.length_map]

lemma foldl_processEncounter_length (encs : List Encounter) :
    ∀ (l : List GroupStanding),
      (encs.foldl processEncounter l).length = l.length := by
  induction encs with
  | nil => intro l; rfl
  | cons e rest ih =>
    intro l
    simp only [List.foldl_cons]
    rw [ih (processEncounter l e), processEncounter_length]

/-- C3: the side with strictly more of the individual match wins is the
encounter winner and receives 3 points, one encounter-win, and a 'W' appended
to its form, while the loser receives 0 points (its points are unchanged),
one encounter-loss, and an 'L'; individual match win/loss totals accumulate
per team. -/
theorem processEncounter_strict_winner (l : List GroupStanding) (e : Encounter)
    (hne : e.home_team_id ≠ e.away_team_id) :
    (awayWinsOf e.results < homeWinsOf e.results →
      processEncounter l e = l.map (fun s =>
        if s.team_id = e.home_team_id then
          { s with matches_played := s.matches_played + 1
                   individual_matches_won :=
                     s.individual_matches_won + homeWinsOf e.results
                   individual_matches_lost :=
                     s.individual_matches_lost + awayWinsOf e.results
                   encounters_won := s.encounters_won + 1
                   points := s.points + 3
                   form := s.form ++ ['W'] }
        else if s.team_id = e.away_team_id then
          { s with matches_played := s.matches_played + 1
                   individual_matches_won :=
                     s.individual_matches_won + awayWinsOf e.results
                   individual_matches_lost :=
                     s.individual_matches_lost + homeWinsOf e.results
                   encounters_lost := s.encounters_lost + 1
                   form := s.form ++ ['L'] }
        else s)) ∧
    (homeWinsOf e.results < awayWinsOf e.results →
      processEncounter l e = l.map (fun s =>
        if s.team_id = e.away_team_id then
          { s with matches_played := s.matches_played + 1
                   individual_matches_won :=
                     s.individual_matches_won + awayWinsOf e.results
                   individual_matches_lost :=
                     s.individual_matches_lost + homeWinsOf e.results
                   encounters_won := s.encounters_won + 1
                   points := s.points + 3
                   form := s.form ++ ['W'] }
        else if s.team_id = e.home_team_id then
          { s with matches_played := s.matches_played + 1
                   individual_matches_won :=
                     s.individual_matches_won + homeWinsOf e.results
                   individual_matches_lost :=
                     s.individual_matches_lost + awayWinsOf e.results
                   encounters_lost := s.encounters_lost + 1
                   form := s.form ++ ['L'] }
        else s)) := by
  constructor
  · intro hwin
    rw [processEncounter_eq_map]
    refine List.map_congr_left (fun s _ => ?_)
    by_cases h1 : s.team_id = e.home_team_id
    · have h2 : s.team_id ≠ e.away_team_id := fun h => hne (h1.symm.trans h)
      rw [encounterStep_home_only h1 h2, if_pos hwin, if_pos h1]
    · by_cases h2 : s.team_id = e.away_team_id
      · rw [encounterStep_away_only h2 h1, if_neg (Nat.lt_asymm hwin),
          if_neg h1, if_pos h2]
      · rw [encounterStep_not_involved h1 h2, if_neg h1, if_neg h2]
  · intro hwin
    rw [processEncounter_eq_map]
    refine List.map_congr_left (fun s _ => ?_)
    by_cases h2 : s.team_id = e.away_team_id
    · have h1 : s.team_id ≠ e.home_team_id := fun h => hne (h.symm.trans h2)
      rw [encounterStep_away_only h2 h1, if_pos hwin, if_pos h2]
    · by_cases h1 : s.team_id = e.home_team_id
      · rw [encounterStep_home_only h1 h2, if_neg (Nat.lt_asymm hwin),
          if_neg h2, if_pos h1]
      · rw [encounterStep_not_involved h1 h2, if_neg h2, if_neg h1]

/-- Witness for C3 at the spec's example: one encounter in which home wins 3
individual matches to 2 — home gets 3 points, 1 encounter-win, 3 individual
wins / 2 losses and a 'W'; away gets 0 points, 1 encounter-loss, 2 wins / 3
losses and an 'L'; in the full pipeline home is ranked above away. -/
theorem processEncounter_strict_winner_witness :
    processEncounter
        [freshStanding ⟨"h", "Home"⟩, freshStanding ⟨"a", "Away"⟩]
        ⟨"h", "a", [⟨some "home"⟩, ⟨some "home"⟩, ⟨some "home"⟩,
          ⟨some "away"⟩, ⟨some "away"⟩]⟩
      = [⟨"h", "Home", false, 0, 1, 1, 0, 3, 2, 3, ['W']⟩,
         ⟨"a", "Away", false, 0, 1, 0, 1, 2, 3, 0, ['L']⟩] ∧
    computeStandings [⟨"h", "Home"⟩, ⟨"a", "Away"⟩]
        [⟨"h", "a", [⟨some "home"⟩, ⟨some "home"⟩, ⟨some "home"⟩,
          ⟨some "away"⟩, ⟨some "away"⟩]⟩]
      = [⟨"h", "Home", false, 1, 1, 1, 0, 3, 2, 3, ['W']⟩,
         ⟨"a", "Away", false, 2, 1, 0, 1, 2, 3, 0, ['L']⟩] := by
  constructor
  · rw [(processEncounter_strict_winner
      [freshStanding ⟨"h", "Home"⟩, freshStanding ⟨"a", "Away"⟩]
      ⟨"h", "a", [⟨some "home"⟩, ⟨some "home"⟩, ⟨some "home"⟩,
        ⟨some "away"⟩, ⟨some "away"⟩]⟩ (by decide)).1 (by decide)]
    decide
  · simp [computeStandings, initStandings, recordInsert, freshStanding,
      sortStandings, List.mergeSort, processEncounter, bumpPlayed,
      applyHomeResult, applyAwayResult, homeWinsOf, awayWinsOf, standingLE,
      standingCmp, standingDiff, finalizeStandings]

/-- C10: if an encounter's results tally to an equal number of home and away
individual wins (only possible for malformed data), both teams are charged an
encounter loss, both get an 'L' appended, and neither side's points change. -/
theorem processEncounter_tied_tally (l : List GroupStanding) (e : Encounter)
    (hne : e.home_team_id ≠ e.away_team_id)
    (htie : homeWinsOf e.results = awayWinsOf e.results) :
    processEncounter l e = l.map (fun s =>
      if s.team_id = e.home_team_id then
        { s with matches_played := s.matches_played + 1
                 individual_matches_won :=
                   s.individual_matches_won + homeWinsOf e.results
                 individual_matches_lost :=
                   s.individual_matches_lost + awayWinsOf e.results
                 encounters_lost := s.encounters_lost + 1
                 form := s.form ++ ['L'] }
      else if s.team_id = e.away_team_id then
        { s with matches_played := s.matches_played + 1
                 individual_matches_won :=
                   s.individual_matches_won + awayWinsOf e.results
                 individual_matches_lost :=
                   s.individual_matches_lost + homeWinsOf e.results
                 encounters_lost := s.encounters_lost + 1
                 form := s.form ++ ['L'] }
      else s) := by
  have hnw1 : ¬ awayWinsOf e.results < homeWinsOf e.results := by omega
  have hnw2 : ¬ homeWinsOf e.results < awayWinsOf e.results := by omega
  rw [processEncounter_eq_map]
  refine List.map_congr_left (fun s _ => ?_)
  by_cases h1 : s.team_id = e.home_team_id
  · have h2 : s.team_id ≠ e.away_team_id := fun h => hne (h1.symm.trans h)
    rw [encounterStep_home_only h1 h2, if_neg hnw1, if_pos h1]
  · by_cases h2 : s.team_id = e.away_team_id
    · rw [encounterStep_away_only h2 h1, if_neg hnw2, if_neg h1, if_pos h2]
    · rw [encounterStep_not_involved h1 h2, if_neg h1, if_neg h2]

/-- Witness for C10 at a concrete malformed encounter with an empty results
list (0-0 tally): both teams get a loss and an 'L', and no points. -/
theorem processEncounter_tied_tally_witness :
    processEncounter
        [freshStanding ⟨"h", "Home"⟩, freshStanding ⟨"a", "Away"⟩]
        ⟨"h", "a", []⟩
      = [⟨"h", "Home", false, 0, 1, 0, 1, 0, 0, 0, ['L']⟩,
         ⟨"a", "Away", false, 0, 1, 0, 1, 0, 0, 0, ['L']⟩] := by
  rw [processEncounter_tied_tally
    [freshStanding ⟨"h", "Home"⟩, freshStanding ⟨"a", "Away"⟩]
    ⟨"h", "a", []⟩ (by decide) (by decide)]
  decide

/-- C4: the standings aggregator orders its output descending by points,
breaks ties by descending (individual wins − individual losses), preserves
the original relative iteration order (the accumulated record in roster
insertion order) for entries still tied after both keys, and assigns 1-based
positions by sorted rank. -/
theorem computeStandings_sorted_stable (regs : List Registration)
    (encs : List Encounter) :
    List.Pairwise (fun a b => standingLE a b = true)
        (computeStandings regs encs) ∧
    (∀ (p : Nat) (d : Int),
      ((computeStandings regs encs).filter
          (fun s => s.points == p && standingDiff s == d)).map
          (fun s => s.team_id)
        = ((encs.foldl processEncounter (initStandings regs)).filter
            (fun s => s.points == p && standingDiff s == d)).map
            (fun s => s.team_id)) ∧
    (computeStandings regs encs).map (fun s => s.position)
      = List.range' 1 (computeStandings regs encs).length := by
  refine ⟨?_, ?_, ?_⟩
  · rw [computeStandings]
    refine finalizeStandings_pairwise 0 _ ?_
    rw [sortStandings]
    exact List.sorted_mergeSort standingLE_trans standingLE_total _
  · intro p d
    rw [computeStandings,
      filter_key_map_team_id p d _ _ (finalizeStandings_map_key 0 _),
      sortStandings_filter_tied]
  · have hlen : (computeStandings regs encs).length
        = (sortStandings (encs.foldl processEncounter (initStandings regs))).length := by
      rw [computeStandings, finalizeStandings_length]
    rw [hlen, computeStandings, finalizeStandings_map_position]

/-- C6: each team's form in the standings output has length at most 5 and is
exactly the last 5 entries of that team's chronological result sequence, in
the order the encounters were supplied. -/
theorem computeStandings_form_last5 (regs : List Registration)
    (encs : List Encounter) :
    ∀ s ∈ computeStandings regs encs,
      s.form.length ≤ 5 ∧
      s.form = (chronoResults s.team_id encs).drop
        ((chronoResults s.team_id encs).length - 5) := by
  intro s hs
  rw [computeStandings] at hs
  obtain ⟨t, ht, htid, _, _, _, _, _, _, _, hform⟩ := mem_finalizeStandings hs
  rw [sortStandings] at ht
  have htX := (List.mergeSort_perm _ standingLE).mem_iff.mp ht
  obtain ⟨u, hu, hutid, huform⟩ := foldl_processEncounter_form encs _ t htX
  have huinit : u.form = [] := by
    obtain ⟨reg, _, rfl⟩ := mem_initStandings hu
    rfl
  have htform : t.form = chronoResults t.team_id encs := by
    rw [huform, huinit, List.nil_append, hutid]
  constructor
  · rw [hform, List.length_drop]
    omega
  · rw [hform, htid, htform]

/-- Witness for C6: a single team with 6 won encounters — its form is capped
at the 5 most recent 'W' entries. -/
theorem computeStandings_form_last5_witness :
    ((⟨"h", "H", false, 1, 6, 6, 0, 30, 0, 18,
        ['W', 'W', 'W', 'W', 'W']⟩ : GroupStanding)).form.length ≤ 5 ∧
    ((⟨"h", "H", false, 1, 6, 6, 0, 30, 0, 18,
        ['W', 'W', 'W', 'W', 'W']⟩ : GroupStanding)).form
      = (chronoResults
          (⟨"h", "H", false, 1, 6, 6, 0, 30, 0, 18,
            ['W', 'W', 'W', 'W', 'W']⟩ : GroupStanding).team_id
          [⟨"h", "x", [⟨some "home"⟩, ⟨some "home"⟩, ⟨some "home"⟩,
              ⟨some "home"⟩, ⟨some "home"⟩]⟩,
           ⟨"h", "x", [⟨some "home"⟩, ⟨some "home"⟩, ⟨some "home"⟩,
              ⟨some "home"⟩, ⟨some "home"⟩]⟩,
           ⟨"h", "x", [⟨some "home"⟩, ⟨some "home"⟩, ⟨some "home"⟩,
              ⟨some "home"⟩, ⟨some "home"⟩]⟩,
           ⟨"h", "x", [⟨some "home"⟩, ⟨some "home"⟩, ⟨some "home"⟩,
              ⟨some "home"⟩, ⟨some "home"⟩]⟩,
           ⟨"h", "x", [⟨some "home"⟩, ⟨some "home"⟩, ⟨some "home"⟩,
              ⟨some "home"⟩, ⟨some "home"⟩]⟩,
           ⟨"h", "x", [⟨some "home"⟩, ⟨some "home"⟩, ⟨some "home"⟩,
              ⟨some "home"⟩, ⟨some "home"⟩]⟩]).drop
        ((chronoResults
          (⟨"h", "H", false, 1, 6, 6, 0, 30, 0, 18,
            ['W', 'W', 'W', 'W', 'W']⟩ : GroupStanding).team_id
          [⟨"h", "x", [⟨some "home"⟩, ⟨some "home"⟩, ⟨some "home"⟩,
              ⟨some "home"⟩, ⟨some "home"⟩]⟩,
           ⟨"h", "x", [⟨some "home"⟩, ⟨some "home"⟩, ⟨some "home"⟩,
              ⟨some "home"⟩, ⟨some "home"⟩]⟩,
           ⟨"h", "x", [⟨some "home"⟩, ⟨some "home"⟩, ⟨some "home"⟩,
              ⟨some "home"⟩, ⟨some "home"⟩]⟩,
           ⟨"h", "x", [⟨some "home"⟩, ⟨some "home"⟩, ⟨some "home"⟩,
              ⟨some "home"⟩, ⟨some "home"⟩]⟩,
           ⟨"h", "x", [⟨some "home"⟩, ⟨some "home"⟩, ⟨some "home"⟩,
              ⟨some "home"⟩, ⟨some "home"⟩]⟩,
           ⟨"h", "x", [⟨some "home"⟩, ⟨some "home"⟩, ⟨some "home"⟩,
              ⟨some "home"⟩, ⟨some "home"⟩]⟩]).length - 5) :=
  computeStandings_form_last5 [⟨"h", "H"⟩] _ _ (by
    simp [computeStandings, initStandings, recordInsert, freshStanding,
      sortStandings, List.mergeSort, processEncounter, bumpPlayed,
      applyHomeResult, applyAwayResult, homeWinsOf, awayWinsOf, standingLE,
      standingCmp, standingDiff, finalizeStandings])

/-- C8: in the standings output, encounters won plus encounters lost always
equals matches played; mechanically, an encounter involving a roster team on
exactly one side increments that team's matches_played by 1 and exactly one
of encounters_won / encounters_lost by 1. -/
theorem computeStandings_balance (regs : List Registration)
    (encs : List Encounter) :
    (∀ s ∈ computeStandings regs encs,
      s.encounters_won + s.encounters_lost = s.matches_played) ∧
    (∀ (s : GroupStanding) (e : Encounter),
      s.team_id = e.home_team_id → s.team_id ≠ e.away_team_id →
      ∃ u, processEncounter [s] e = [u] ∧
        u.matches_played = s.matches_played + 1 ∧
        u.encounters_won + u.encounters_lost
          = s.encounters_won + s.encounters_lost + 1) ∧
    (∀ (s : GroupStanding) (e : Encounter),
      s.team_id = e.away_team_id → s.team_id ≠ e.home_team_id →
      ∃ u, processEncounter [s] e = [u] ∧
        u.matches_played = s.matches_played + 1 ∧
        u.encounters_won + u.encounters_lost
          = s.encounters_won + s.encounters_lost + 1) := by
  refine ⟨?_, ?_, ?_⟩
  · intro s hs
    rw [computeStandings] at hs
    obtain ⟨t, ht, _, _, hmp, hew, hel, _, _, _, _⟩ := mem_finalizeStandings hs
    rw [sortStandings] at ht
    have htX := (List.mergeSort_perm _ standingLE).mem_iff.mp ht
    have hinit : ∀ u ∈ initStandings regs,
        u.encounters_won + u.encounters_lost = u.matches_played := by
      intro u hu
      obtain ⟨reg, _, rfl⟩ := mem_initStandings hu
      rfl
    have hbal := foldl_processEncounter_balance encs (initStandings regs)
      hinit t htX
    rw [hew, hel, hmp]
    exact hbal
  · intro s e h1 h2
    refine ⟨encounterStep e s, by rw [processEncounter_eq_map]; rfl, ?_⟩
    rw [encounterStep_home_only h1 h2]
    split_ifs <;> simp <;> omega
  · intro s e h1 h2
    refine ⟨encounterStep e s, by rw [processEncounter_eq_map]; rfl, ?_⟩
    rw [encounterStep_away_only h1 h2]
    split_ifs <;> simp <;> omega

/-- Witness for C8 at a concrete roster, encounter list, and single-team
encounter step. -/
theorem computeStandings_balance_witness :
    ((⟨"h", "Home", false, 1, 1, 1, 0, 3, 2, 3, ['W']⟩ :
        GroupStanding).encounters_won
      + (⟨"h", "Home", false, 1, 1, 1, 0, 3, 2, 3, ['W']⟩ :
          GroupStanding).encounters_lost
      = (⟨"h", "Home", false, 1, 1, 1, 0, 3, 2, 3, ['W']⟩ :
          GroupStanding).matches_played) ∧
    (∃ u, processEncounter [freshStanding ⟨"h", "Home"⟩] ⟨"h", "a", []⟩ = [u] ∧
      u.matches_played = (freshStanding ⟨"h", "Home"⟩).matches_played + 1 ∧
      u.encounters_won + u.encounters_lost
        = (freshStanding ⟨"h", "Home"⟩).encounters_won
          + (freshStanding ⟨"h", "Home"⟩).encounters_lost + 1) :=
  ⟨(computeStandings_balance [⟨"h", "Home"⟩, ⟨"a", "Away"⟩]
      [⟨"h", "a", [⟨some "home"⟩, ⟨some "home"⟩, ⟨some "home"⟩,
        ⟨some "away"⟩, ⟨some "away"⟩]⟩]).1
    ⟨"h", "Home", false, 1, 1, 1, 0, 3, 2, 3, ['W']⟩
    (by
      simp [computeStandings, initStandings, recordInsert, freshStanding,
        sortStandings, List.mergeSort, processEncounter, bumpPlayed,
        applyHomeResult, applyAwayResult, homeWinsOf, awayWinsOf, standingLE,
        standingCmp, standingDiff, finalizeStandings]),
   (computeStandings_balance [] []).2.1 (freshStanding ⟨"h", "Home"⟩)
    ⟨"h", "a", []⟩ (by decide) (by decide)⟩

/-- C9: the standings aggregator returns exactly one entry per roster team
whatever the encounter list is — the output team ids are a permutation of
the roster ids — and an encounter naming no roster team on either side is
silently skipped, leaving the standings unchanged. -/
theorem computeStandings_one_entry_per_roster (regs : List Registration)
    (encs : List Encounter)
    (hnd : (regs.map (fun r => r.user_id)).Nodup) :
    ((computeStandings regs encs).map (fun s => s.team_id)).Perm
        (regs.map (fun r => r.user_id)) ∧
    (∀ (l : List GroupStanding) (e : Encounter),
      (∀ s ∈ l, s.team_id ≠ e.home_team_id ∧ s.team_id ≠ e.away_team_id) →
      processEncounter l e = l) := by
  constructor
  · rw [computeStandings, finalizeStandings_map_team_id, sortStandings]
    have hp := (List.mergeSort_perm
      (encs.foldl processEncounter (initStandings regs)) standingLE).map
      (fun s => s.team_id)
    refine hp.trans ?_
    rw [foldl_processEncounter_map_team_id, initStandings_nodup hnd,
      List.map_map]
    exact List.Perm.refl _
  · intro l e h
    rw [processEncounter_eq_map]
    have hstep : ∀ s ∈ l, encounterStep e s = s :=
      fun s hs => encounterStep_not_involved (h s hs).1 (h s hs).2
    rw [List.map_congr_left hstep, List.map_id']

/-- Witness for C9 with a two-team roster, an encounter involving an
off-roster away team, and an untouched standings list. -/
theorem computeStandings_one_entry_per_roster_witness :
    ((computeStandings [⟨"h", "Home"⟩, ⟨"a", "Away"⟩]
        [⟨"h", "z", [⟨some "home"⟩]⟩]).map (fun s => s.team_id)).Perm
      (([⟨"h", "Home"⟩, ⟨"a", "Away"⟩] : List Registration).map
        (fun r => r.user_id)) ∧
    processEncounter [freshStanding ⟨"q", "Q"⟩] ⟨"h", "a", []⟩
      = [freshStanding ⟨"q", "Q"⟩] :=
  ⟨(computeStandings_one_entry_per_roster [⟨"h", "Home"⟩, ⟨"a", "Away"⟩]
      [⟨"h", "z", [⟨some "home"⟩]⟩] (by decide)).1,
   (computeStandings_one_entry_per_roster [⟨"h", "Home"⟩, ⟨"a", "Away"⟩]
      [⟨"h", "z", [⟨some "home"⟩]⟩] (by decide)).2
     [freshStanding ⟨"q", "Q"⟩] ⟨"h", "a", []⟩ (by decide)⟩

/-- Counterexample to C5: at the malformed encounter whose results list is
empty (no winners recorded; the tally 0 + 0 does not sum to the fixed match
count of 5), the aggregator does not fail fast: it returns ordinary
standings — charging both sides an encounter loss — and in particular not
the empty list, the only error sentinel the source method ever returns. -/
theorem computeStandings_malformed_counterexample :
    computeStandings [⟨"h", "Home"⟩, ⟨"a", "Away"⟩] [⟨"h", "a", []⟩]
      = [⟨"h", "Home", false, 1, 1, 0, 1, 0, 0, 0, ['L']⟩,
         ⟨"a", "Away", false, 2, 1, 0, 1, 0, 0, 0, ['L']⟩] ∧
    computeStandings [⟨"h", "Home"⟩, ⟨"a", "Away"⟩] [⟨"h", "a", []⟩] ≠ [] := by
  have h : computeStandings [⟨"h", "Home"⟩, ⟨"a", "Away"⟩] [⟨"h", "a", []⟩]
      = [⟨"h", "Home", false, 1, 1, 0, 1, 0, 0, 0, ['L']⟩,
         ⟨"a", "Away", false, 2, 1, 0, 1, 0, 0, 0, ['L']⟩] := by
    simp [computeStandings, initStandings, recordInsert, freshStanding,
      sortStandings, List.mergeSort, processEncounter, bumpPlayed,
      applyHomeResult, applyAwayResult, homeWinsOf, awayWinsOf, standingLE,
      standingCmp, standingDiff, finalizeStandings]
  exact ⟨h, by rw [h]; exact fun hc => List.cons_ne_nil _ _ hc⟩

/-- C5 as amended: the aggregator never signals malformed encounter data.
Every individual result is consumed — one whose winner is not the string
'home' (including a missing winner) counts as an away win, so home plus away
tallies always equal the results length, with no check against the 5-match
format — and the aggregator still returns one standings entry per roster
team rather than any error result. -/
theorem computeStandings_silent_on_malformed (regs : List Registration)
    (encs : List Encounter)
    (hnd : (regs.map (fun r => r.user_id)).Nodup) :
    (computeStandings regs encs).length = regs.length ∧
    ∀ results : List MatchResult,
      homeWinsOf results + awayWinsOf results = results.length := by
  constructor
  · rw [computeStandings, finalizeStandings_length, sortStandings,
      (List.mergeSort_perm _ standingLE).length_eq,
      foldl_processEncounter_length, initStandings_nodup hnd,
      List.length_map]
  · intro results
    induction results with
    | nil => rfl
    | cons r rest ih =>
      simp only [homeWinsOf, awayWinsOf, List.countP_cons, List.length_cons]
        at ih ⊢
      by_cases hr : (r.winner == some "home") = true
      · simp [hr]
        omega
      · simp only [Bool.not_eq_true] at hr
        simp [hr]
        omega

/-- Witness for C5's amended statement at a malformed single-result encounter
with a missing winner. -/
theorem computeStandings_silent_on_malformed_witness :
    (computeStandings [⟨"h", "Home"⟩] [⟨"h", "a", [⟨none⟩]⟩]).length
        = ([⟨"h", "Home"⟩] : List Registration).length ∧
    homeWinsOf [⟨none⟩] + awayWinsOf [⟨none⟩]
      = ([⟨none⟩] : List MatchResult).length :=
  ⟨(computeStandings_silent_on_malformed [⟨"h", "Home"⟩]
      [⟨"h", "a", [⟨none⟩]⟩] (by decide)).1,
   (computeStandings_silent_on_malformed [⟨"h", "Home"⟩]
      [⟨"h", "a", [⟨none⟩]⟩] (by decide)).2 [⟨none⟩]⟩

end Leadminton
